import Mathlib

/-!
Shallow embedding of the GLB Transform Raycast extension
(`glb-advanced.tsx`, `utils.ts`, `glb-inspect.tsx`).

Conventions of the embedding:
* JavaScript strings are Lean `String`s; Node `path` helpers are modelled
  for normalized POSIX paths (no trailing slashes, no `..` segments),
  which is the shape of the Finder-selected file paths the code receives.
* JavaScript numbers holding file sizes and counts are modelled as `Nat`
  (exact below 2^53); arithmetic on size totals is modelled on `Int`/`Rat`,
  `x / 0` and `NaN`/`Infinity` outcomes being represented explicitly where
  the code can reach them.
* The asynchronous effects (`execAsync`, `stat`) are modelled by an
  explicit environment of result-returning functions; a thrown `Error` is
  an `Except.error` carrying the message string.
-/

namespace GlbSpec

/-! ### Node `path` model (POSIX, normalized paths) -/

/-- `path.basename(p)`: the part of `p` after the last slash.
(Node also strips trailing slashes; the paths this extension handles end
in `.glb`/`.GLB`, never in a slash, where the two agree.) -/
def basename (p : String) : String :=
  ⟨(p.data.reverse.takeWhile (fun c => c ≠ '/')).reverse⟩

/-- `path.dirname(p)`: everything before the last slash, with trailing
slashes removed; `"."` when `p` has no slash; `"/"` for root-anchored
names like `"/a.glb"`. -/
def dirname (p : String) : String :=
  let r := p.data.reverse.dropWhile (fun c => c ≠ '/')
  let r2 := r.dropWhile (fun c => c = '/')
  if r.isEmpty then "." else if r2.isEmpty then "/" else ⟨r2.reverse⟩

/-- Drop `s` from the end of `l` when it is a proper suffix (Node
`path.basename(p, ext)` does not strip when the whole name equals the
extension). -/
def stripSuffixCh (l s : List Char) : List Char :=
  if l ≠ s ∧ s <:+ l then l.take (l.length - s.length) else l

/-- `path.basename(p, ext)`. -/
def basenameExt (p ext : String) : String :=
  ⟨stripSuffixCh (basename p).data ext.data⟩

/-- `path.join(d, n)` for a `d` produced by `dirname` and a slash-free
file name `n` (no `.`/`..` normalization is needed for that shape). -/
def joinPath (d n : String) : String :=
  if d = "." then n else if d = "/" then "/" ++ n else d ++ "/" ++ n

/-- Shell quoting used around every input/output path: `` `"${p}"` ``. -/
def quoteArg (p : String) : String := "\"" ++ p ++ "\""

/-! ### Output path derivation -/

/-- `transformGlb`: `outputPath = path.join(dirName, baseName + "_optimized.glb")`
with `baseName = path.basename(filePath, ".glb")`. -/
def outputPathAdv (filePath : String) : String :=
  joinPath (dirname filePath) (basenameExt filePath ".glb" ++ "_optimized.glb")

/-- `CompressionMode` of `utils.ts`. -/
inductive CompressionMode where
  | draco | ktx | full
deriving DecidableEq, Repr

/-- The string value of the mode (`"draco" | "ktx" | "full"`). -/
def CompressionMode.str : CompressionMode → String
  | .draco => "draco"
  | .ktx => "ktx"
  | .full => "full"

/-- `compressGlb`: `suffix = mode === "full" ? "_compressed" : "_" + mode`. -/
def modeSuffix (m : CompressionMode) : String :=
  if m = .full then "_compressed" else "_" ++ m.str

/-- `compressGlb`: `outputPath = path.join(dirName, baseName + suffix + ".glb")`. -/
def outputPathMode (m : CompressionMode) (filePath : String) : String :=
  joinPath (dirname filePath) (basenameExt filePath ".glb" ++ modeSuffix m ++ ".glb")

/-! ### Form values and the pipeline builder (`glb-advanced.tsx`) -/

/-- The `FormValues` interface (string fields are the raw form values). -/
structure FormValues where
  geometryCompression : String
  textureCompression : String
  textureResize : String
  dedup : Bool
  flatten : Bool
  join : Bool
  weld : Bool
  prune : Bool
  resample : Bool
  sparse : Bool
  «instance» : Bool
  instanceMin : String
  palette : Bool
  paletteMin : String
  simplify : Bool
  simplifyRatio : String
  simplifyError : String
deriving DecidableEq, Repr

/-- JavaScript `s || d` on strings: the default kicks in on the empty
(falsy) string. -/
def orDefault (s d : String) : String := if s = "" then d else s

/-- One entry pushed by `addCommand(cmd, args)`: the subcommand name, the
declared (quoted) input and output, and the trailing arguments. -/
structure Cmd where
  name : String
  input : String
  output : String
  args : String
deriving DecidableEq, Repr

/-- JavaScript `String.prototype.trim()`: strip leading and trailing
whitespace (here only a trailing space, left by empty `args`, ever
occurs). -/
def trimStr (s : String) : String :=
  ⟨((s.data.dropWhile Char.isWhitespace).reverse.dropWhile Char.isWhitespace).reverse⟩

/-- The command string pushed onto `commands`:
`` `gltf-transform ${cmd} ${currentInput} ${output} ${args}`.trim() ``. -/
def renderCommand (c : Cmd) : String :=
  trimStr ("gltf-transform " ++ c.name ++ " " ++ c.input ++ " " ++ c.output ++ " " ++ c.args)

/-- `textureCmd`: the `ktx2` selection maps to the tool's `etc1s`
subcommand, every other selection is used verbatim. -/
def textureCmd (v : FormValues) : String :=
  if v.textureCompression = "ktx2" then "etc1s" else v.textureCompression

/-- The thirteen guarded `addCommand` calls of `transformGlb`, in source
order: a guard (the `if` condition) paired with the pushed
(subcommand, args). `parseFloat`/re-stringification of the simplify ratio
is elided (the numeral text passes through for the inputs the form
produces). -/
def stepList (v : FormValues) : List (Bool × (String × String)) :=
  [ (v.dedup, ("dedup", "")),
    (v.«instance», ("instance", "--min " ++ orDefault v.instanceMin "5")),
    (v.palette, ("palette", "--min " ++ orDefault v.paletteMin "5")),
    (v.flatten, ("flatten", "")),
    (v.join, ("join", "")),
    (v.weld, ("weld", "")),
    (v.simplify, ("simplify", "--ratio " ++ orDefault v.simplifyRatio "0.75")),
    (v.resample, ("resample", "")),
    (v.prune, ("prune", "")),
    (v.sparse, ("sparse", "")),
    (v.textureCompression != "none", (textureCmd v, "")),
    (v.textureResize != "none",
      ("resize", "--width " ++ v.textureResize ++ " --height " ++ v.textureResize)),
    (v.geometryCompression != "none", (v.geometryCompression, "")) ]

/-- Concatenate the steps whose guards hold (the sequence of executed
`addCommand` calls). -/
def segJoin : List (Bool × α) → List α
  | [] => []
  | (b, x) :: rest => (if b then [x] else []) ++ segJoin rest

/-- The (subcommand, args) pairs `transformGlb` pushes for `v`. -/
def buildSteps (v : FormValues) : List (String × String) :=
  segJoin (stepList v)

/-- The input/output threading performed by `addCommand`: the first
command reads `cur`, every command writes `out`, and each later command
reads `out`. -/
def chainCmds (cur out : String) : List (String × String) → List Cmd
  | [] => []
  | (c, a) :: rest => ⟨c, cur, out, a⟩ :: chainCmds out out rest

/-- The full command list `transformGlb` builds for one file: the guarded
steps, with `copy` substituted when nothing is enabled, threaded through
the quoted input and output paths. -/
def buildCommands (filePath : String) (v : FormValues) : List Cmd :=
  let steps := buildSteps v
  let steps := if steps = [] then [("copy", "")] else steps
  chainCmds (quoteArg filePath) (quoteArg (outputPathAdv filePath)) steps

/-! ### Execution model (`execAsync`, `getFileSize`, `transformGlb`, batch loop) -/

/-- `CompressionResult` of `utils.ts`: the optional fields are absent
(`none`) on the branch that does not set them. -/
structure CompressionResult where
  file : String
  success : Bool
  error : Option String := none
  originalSize : Option Nat := none
  compressedSize : Option Nat := none
deriving DecidableEq, Repr

/-- The effectful collaborators: `execAsync(cmd, execOptions)` and
`stat`-based `getFileSize`. A rejection is `Except.error` carrying the
thrown error's message. -/
structure Env where
  run : String → Except String Unit
  fileSize : String → Except String Nat

/-- `for (const command of commands) await execAsync(command, execOptions)`:
sequential execution, stopping at the first failure. -/
def runCmds (env : Env) : List String → Except String Unit
  | [] => .ok ()
  | c :: rest => do
    let _ ← env.run c
    runCmds env rest

/-- The body of `transformGlb`'s `try` block: original size, the command
chain, then the output size. -/
def transformGlbE (env : Env) (filePath : String) (v : FormValues) :
    Except String (Nat × Nat) := do
  let originalSize ← env.fileSize filePath
  let _ ← runCmds env ((buildCommands filePath v).map renderCommand)
  let compressedSize ← env.fileSize (outputPathAdv filePath)
  pure (originalSize, compressedSize)

/-- `transformGlb`: the `catch` turns any failure into a failure-flagged
`CompressionResult` carrying the error message verbatim. -/
def transformGlb (env : Env) (filePath : String) (v : FormValues) :
    CompressionResult :=
  match transformGlbE env filePath v with
  | .ok (o, c) =>
    { file := basename filePath, success := true,
      originalSize := some o, compressedSize := some c }
  | .error m => { file := basename filePath, success := false, error := some m }

/-- `handleSubmit`'s per-file loop: `results.push(await transformGlb(file.path, values))`
for each selected `.glb` file, in order. -/
def processFiles (env : Env) (files : List String) (v : FormValues) :
    List CompressionResult :=
  files.map (fun f => transformGlb env f v)

/-- The eligibility filter `item.path.toLowerCase().endsWith(".glb")`
(ASCII lowercasing; the extension is ASCII). -/
def isGlbFile (p : String) : Bool :=
  (".glb".data).isSuffixOf (p.data.map Char.toLower)

/-! ### `formatBytes` and the summary HUD -/

/-- Fuel-driven base-1024 floor logarithm (the fuel argument only powers
the recursion; `unitIndex` instantiates it so it never runs out). -/
def unitIndexAux : Nat → Nat → Nat
  | 0, _ => 0
  | fuel + 1, n => if n < 1024 then 0 else unitIndexAux fuel (n / 1024) + 1

/-- `i = Math.floor(Math.log(bytes) / Math.log(1024))` for `bytes ≥ 1`,
modelled by the exact integer logarithm (the double-precision computation
agrees on the sizes at stake). -/
def unitIndex (n : Nat) : Nat := unitIndexAux n n

/-- The `sizes` table of `formatBytes`. -/
def sizes : List String := ["Bytes", "KB", "MB", "GB"]

/-- Decimal rendering of a nonnegative rational already scaled by 100 and
rounded: models `parseFloat(x.toFixed(2))` re-stringified, which strips
trailing fractional zeros. -/
def stripTrailing (n2 : Nat) : String :=
  let ip := n2 / 100
  let fr := n2 % 100
  if fr = 0 then toString ip
  else if fr % 10 = 0 then toString ip ++ "." ++ toString (fr / 10)
  else toString ip ++ "." ++ (if fr < 10 then "0" ++ toString fr else toString fr)

/-- `toFixed(2)` rounding of the nonnegative quotient `num / den`, scaled
by 100: the nearest integer, ties toward the larger, computed on
integers (`round2_eq_floor` below relates it to the rational
`⌊q·100 + 1/2⌋`). -/
def round2 (num den : Nat) : Nat := (200 * num + den) / (2 * den)

/-- `parseFloat((num / den).toFixed(2)) + ""` for the nonnegative scaled
quotient. -/
def formatScaled (num den : Nat) : String := stripTrailing (round2 num den)

/-- `formatBytes` of `utils.ts`, extended to every integer input the code
can reach. For a negative input, `Math.log` yields `NaN`, so the index,
the scaled number and the table lookup all degrade to `"NaN undefined"`;
for an input of at least `1024^4` the index walks off the 4-entry table
and the unit renders as `undefined`. -/
def formatBytes (bytes : Int) : String :=
  if bytes = 0 then "0 Bytes"
  else if bytes < 0 then "NaN undefined"
  else
    let i := unitIndex bytes.toNat
    formatScaled bytes.toNat (1024 ^ i) ++ " " ++
      ((sizes.get? i).getD "undefined")

/-- `(num / den).toFixed(1)` for a positive `den`: sign split first (per
the ECMAScript algorithm), then nearest-integer-at-one-decimal with ties
toward the larger magnitude, computed on integers
(`toFixed1Frac_eq_rat` below relates it to the rational rounding). -/
def toFixed1Frac (num : Int) (den : Nat) : String :=
  let render : Nat → String := fun m => toString (m / 10) ++ "." ++ toString (m % 10)
  if num < 0 then "-" ++ render ((20 * num.natAbs + den) / (2 * den))
  else render ((20 * num.natAbs + den) / (2 * den))

/-- The rational-level rendering of `q.toFixed(1)`: what the claimed
"percent, one decimal place" means. -/
def toFixed1Rat (q : Rat) : String :=
  let render : Nat → String := fun m => toString (m / 10) ++ "." ++ toString (m % 10)
  if q < 0 then "-" ++ render (⌊(-q) * 10 + 1 / 2⌋).toNat
  else render (⌊q * 10 + 1 / 2⌋).toNat

/-- `((savings / totalOriginal) * 100).toFixed(1)`: unguarded division —
a zero total yields the non-numeric `NaN`/`Infinity` renderings of the
underlying IEEE division (`savings / total * 100 = savings * 100 / total`
exactly). -/
def savingsPercentStr (savings : Int) (total : Nat) : String :=
  if total = 0 then
    if savings < 0 then "-Infinity" else if 0 < savings then "Infinity" else "NaN"
  else toFixed1Frac (savings * 100) total

/-- `successful.reduce((acc, r) => acc + (r.originalSize || 0), 0)`. -/
def totalOriginal (rs : List CompressionResult) : Nat :=
  (rs.map (fun r => r.originalSize.getD 0)).sum

/-- `successful.reduce((acc, r) => acc + (r.compressedSize || 0), 0)`. -/
def totalCompressed (rs : List CompressionResult) : Nat :=
  (rs.map (fun r => r.compressedSize.getD 0)).sum

/-- `` `${n > 1 ? "s" : ""}` ``. -/
def pluralS (n : Nat) : String := if 1 < n then "s" else ""

/-- The terminal `showHUD` message of `handleSubmit`: all-succeeded,
all-failed, or mixed. -/
def summaryMessage (results : List CompressionResult) : String :=
  let successful := results.filter (fun r => r.success)
  let failed := results.filter (fun r => !r.success)
  if failed.length = 0 then
    let totalOrig := totalOriginal successful
    let totalComp := totalCompressed successful
    let savings : Int := (totalOrig : Int) - (totalComp : Int)
    ("✅ Optimized " ++ toString successful.length ++ " file" ++
        pluralS successful.length ++ " - Saved ") ++
      (formatBytes savings ++
        (" (" ++ savingsPercentStr savings totalOrig ++ "%)"))
  else if successful.length = 0 then
    "❌ Failed to optimize " ++ toString failed.length ++ " file" ++
      pluralS failed.length
  else
    "⚠️ " ++ toString successful.length ++ " optimized, " ++
      toString failed.length ++ " failed"

/-- The terminal `showHUD` message of `processGlbFiles` in `utils.ts`
(the three fixed compression modes); same classification and arithmetic,
different wording. -/
def summaryMessageMode (modeName : String) (results : List CompressionResult) :
    String :=
  let successful := results.filter (fun r => r.success)
  let failed := results.filter (fun r => !r.success)
  if failed.length = 0 then
    let totalOrig := totalOriginal successful
    let totalComp := totalCompressed successful
    let savings : Int := (totalOrig : Int) - (totalComp : Int)
    ("✅ " ++ modeName ++ ": " ++ toString successful.length ++ " file" ++
        pluralS successful.length ++ " - Saved ") ++
      (formatBytes savings ++
        (" (" ++ savingsPercentStr savings totalOrig ++ "%)"))
  else if successful.length = 0 then
    "❌ Failed to compress " ++ toString failed.length ++ " file" ++
      pluralS failed.length
  else
    "⚠️ " ++ toString successful.length ++ " compressed, " ++
      toString failed.length ++ " failed"

/-! ### Report navigation (`glb-inspect.tsx`) -/

/-- "Next File": `setSelectedFileIndex((i) => (i + 1) % results.length)`.
JavaScript `%` truncates toward zero; on the nonnegative operands reached
from an index in `[0, n)` it coincides with `Int.emod`. -/
def nextIndex (n i : Int) : Int := (i + 1) % n

/-- "Previous File": `setSelectedFileIndex((i) => (i - 1 + results.length) % results.length)`. -/
def prevIndex (n i : Int) : Int := (i - 1 + n) % n

/-! ### Priority ranks and configuration predicates -/

/-- The rank of each subcommand in the builder's fixed step sequence
(13 = not a pipeline step). -/
def stepPriority : String → Nat
  | "dedup" => 0
  | "instance" => 1
  | "palette" => 2
  | "flatten" => 3
  | "join" => 4
  | "weld" => 5
  | "simplify" => 6
  | "resample" => 7
  | "prune" => 8
  | "sparse" => 9
  | "etc1s" => 10
  | "webp" => 10
  | "avif" => 10
  | "png" => 10
  | "jpeg" => 10
  | "resize" => 11
  | "draco" => 12
  | "meshopt" => 12
  | _ => 13

/-- The dropdown vocabularies of the form: every submitted configuration
has its two codec selections among the declared items. -/
def WFValues (v : FormValues) : Prop :=
  v.geometryCompression ∈ ["none", "draco", "meshopt"] ∧
    v.textureCompression ∈ ["none", "ktx2", "webp", "avif", "png", "jpeg"]

instance : DecidablePred WFValues := fun v => by
  unfold WFValues; infer_instance

/-- Every optional step disabled and every codec/resize selection `"none"`. -/
def allDisabled (v : FormValues) : Prop :=
  v.dedup = false ∧ v.«instance» = false ∧ v.palette = false ∧
    v.flatten = false ∧ v.join = false ∧ v.weld = false ∧
    v.simplify = false ∧ v.resample = false ∧ v.prune = false ∧
    v.sparse = false ∧ v.textureCompression = "none" ∧
    v.textureResize = "none" ∧ v.geometryCompression = "none"

instance : DecidablePred allDisabled := fun v => by
  unfold allDisabled; infer_instance

/-! ### Concrete instances used by witnesses and counterexamples -/

/-- A configuration with every optional step disabled and every
codec/resize selection `"none"`. -/
def vAllOff : FormValues :=
  { geometryCompression := "none", textureCompression := "none",
    textureResize := "none", dedup := false, flatten := false, join := false,
    weld := false, prune := false, resample := false, sparse := false,
    «instance» := false, instanceMin := "", palette := false, paletteMin := "",
    simplify := false, simplifyRatio := "", simplifyError := "" }

/-- A configuration enabling dedup, weld and simplify with draco geometry
and ktx2 texture compression. -/
def vSome : FormValues :=
  { vAllOff with
    dedup := true
    weld := true
    simplify := true
    geometryCompression := "draco"
    textureCompression := "ktx2" }

/-- An environment in which every external command fails with `"boom"`. -/
def envBoom : Env :=
  { run := fun _ => Except.error "boom", fileSize := fun _ => Except.ok 7 }

/-- An environment in which exactly the copy command for `"b.glb"` fails
with `"boom"`, and everything else succeeds. -/
def envFailB : Env :=
  { run := fun s =>
      if s = "gltf-transform copy \"b.glb\" \"b_optimized.glb\"" then
        Except.error "boom"
      else Except.ok (),
    fileSize := fun _ => Except.ok 10 }

/-! ### Helper lemmas -/

theorem nextIndex_iterate (n i : Int) (h0 : 0 ≤ i) (hi : i < n) :
    ∀ k : Nat, (nextIndex n)^[k] i = (i + k) % n := by
  intro k
  induction k with
  | zero => simpa using (Int.emod_eq_of_lt h0 hi).symm
  | succ m ih =>
      rw [Function.iterate_succ_apply', ih, nextIndex, Int.emod_add_emod]
      push_cast
      ring_nf

theorem prevIndex_iterate (n i : Int) (h0 : 0 ≤ i) (hi : i < n) :
    ∀ k : Nat, (prevIndex n)^[k] i = (i - k) % n := by
  intro k
  induction k with
  | zero => simpa using (Int.emod_eq_of_lt h0 hi).symm
  | succ m ih =>
      rw [Function.iterate_succ_apply', ih, prevIndex]
      have h1 : (i - (m : Int)) % n - 1 + n = ((i - m) % n + (-1)) + n * 1 := by ring
      rw [h1, Int.add_mul_emod_self_left, Int.emod_add_emod]
      push_cast
      ring_nf

/-! ### C9 -/

/-- C9: with `N` reports, "next" and "previous" each step the selected
index modulo `N`, so `N` consecutive steps in either direction return to
the starting index, and every reachable index stays inside `[0, N-1]`. -/
theorem report_navigation_cyclic (n i : Int) (hn : 0 < n) (h0 : 0 ≤ i)
    (hi : i < n) :
    (nextIndex n)^[n.toNat] i = i ∧ (prevIndex n)^[n.toNat] i = i ∧
      ∀ k : Nat, 0 ≤ (nextIndex n)^[k] i ∧ (nextIndex n)^[k] i < n ∧
        0 ≤ (prevIndex n)^[k] i ∧ (prevIndex n)^[k] i < n := by
  have hnz : n ≠ 0 := ne_of_gt hn
  have htn : ((n.toNat : Int)) = n := Int.toNat_of_nonneg hn.le
  refine ⟨?_, ?_, ?_⟩
  · rw [nextIndex_iterate n i h0 hi, htn]
    have h1 : i + n = i + n * 1 := by ring
    rw [h1, Int.add_mul_emod_self_left]
    exact Int.emod_eq_of_lt h0 hi
  · rw [prevIndex_iterate n i h0 hi, htn]
    have h1 : i - n = i + n * (-1) := by ring
    rw [h1, Int.add_mul_emod_self_left]
    exact Int.emod_eq_of_lt h0 hi
  · intro k
    rw [nextIndex_iterate n i h0 hi, prevIndex_iterate n i h0 hi]
    exact ⟨Int.emod_nonneg _ hnz, Int.emod_lt_of_pos _ hn,
      Int.emod_nonneg _ hnz, Int.emod_lt_of_pos _ hn⟩

/-- Witness for C9 at `N = 3`, starting index `1`. -/
theorem report_navigation_cyclic_witness :
    (0 : Int) < 3 ∧ (nextIndex 3)^[3] 1 = 1 ∧ (prevIndex 3)^[3] 1 = 1 ∧
      0 ≤ (nextIndex 3)^[2] 1 ∧ (nextIndex 3)^[2] 1 < 3 := by
  have h := report_navigation_cyclic 3 1 (by norm_num) (by norm_num) (by norm_num)
  exact ⟨by norm_num, h.1, h.2.1, (h.2.2 2).1, (h.2.2 2).2.1⟩

theorem unitIndexAux_eq_log :
    ∀ fuel n : Nat, n ≤ fuel → unitIndexAux fuel n = Nat.log 1024 n := by
  intro fuel
  induction fuel with
  | zero =>
      intro n hn
      have : n = 0 := Nat.le_zero.mp hn
      subst this
      simp [unitIndexAux]
  | succ f ih =>
      intro n hn
      by_cases h : n < 1024
      · rw [Nat.log_of_lt h]
        simp [unitIndexAux, h]
      · push_neg at h
        have hdiv : n / 1024 ≤ f := by
          have h1 : n / 1024 < n := Nat.div_lt_self (by omega) (by norm_num)
          omega
        rw [Nat.log_of_one_lt_of_le (by norm_num) h]
        simp only [unitIndexAux, if_neg (by omega : ¬ n < 1024)]
        rw [ih (n / 1024) hdiv]

theorem unitIndex_eq_log (n : Nat) : unitIndex n = Nat.log 1024 n :=
  unitIndexAux_eq_log n n le_rfl

theorem unitIndex_lt_four {n : Nat} (h1 : 1 ≤ n) (h2 : n < 1024 ^ 4) :
    unitIndex n < 4 := by
  rw [unitIndex_eq_log]
  exact Nat.log_lt_of_lt_pow (by omega) h2

theorem four_le_unitIndex {n : Nat} (h : 1024 ^ 4 ≤ n) : 4 ≤ unitIndex n := by
  rw [unitIndex_eq_log]
  exact Nat.le_log_of_pow_le (by norm_num) h

theorem unitIndex_pow_le {n : Nat} (h1 : 1 ≤ n) : 1024 ^ unitIndex n ≤ n := by
  rw [unitIndex_eq_log]
  exact Nat.pow_log_le_self 1024 (by omega)

theorem lt_pow_unitIndex_succ (n : Nat) : n < 1024 ^ (unitIndex n + 1) := by
  rw [unitIndex_eq_log]
  exact Nat.lt_pow_succ_log_self (by norm_num) n

/-! ### C8 -/

/-- C8 counterexample: `formatBytes(1073741824)` is `"1 GB"`, not
`"1.00 GB"` — `parseFloat("1.00")` collapses to the number `1`, whose
string form has no decimal places. -/
theorem formatBytes_gb_counterexample :
    formatBytes 1073741824 ≠ "1.00 GB" := by decide

/-- C8 (amended): `formatBytes` returns `"0 Bytes"` for `0` and
otherwise picks the largest unit of Bytes/KB/MB/GB whose scaled value is
at least 1, showing at most two decimal places (the
`parseFloat`/`toFixed(2)` round-trip strips trailing fractional zeros);
in particular `formatBytes 1536 = "1.5 KB"` and
`formatBytes 1073741824 = "1 GB"`. -/
theorem formatBytes_spec_amended :
    formatBytes 0 = "0 Bytes" ∧ formatBytes 1536 = "1.5 KB" ∧
      formatBytes 1073741824 = "1 GB" ∧
      ∀ b : Int, 1 ≤ b → b < (1024 : Int) ^ 4 →
        unitIndex b.toNat < 4 ∧
          1024 ^ unitIndex b.toNat ≤ b.toNat ∧
          b.toNat < 1024 ^ (unitIndex b.toNat + 1) := by
  refine ⟨by decide, by decide, by decide, ?_⟩
  intro b hb1 hb2
  have h1 : 1 ≤ b.toNat := by omega
  have h2 : b.toNat < 1024 ^ 4 := by
    have : ((1024 : Int) ^ 4) = ((1024 ^ 4 : Nat) : Int) := by norm_num
    omega
  exact ⟨unitIndex_lt_four h1 h2, unitIndex_pow_le h1, lt_pow_unitIndex_succ _⟩

/-- Witness for C8's amended general part at `b = 1536`. -/
theorem formatBytes_spec_amended_witness :
    (1 : Int) ≤ 1536 ∧ (1536 : Int) < (1024 : Int) ^ 4 ∧
      unitIndex (1536 : Int).toNat < 4 ∧
      1024 ^ unitIndex (1536 : Int).toNat ≤ (1536 : Int).toNat ∧
      (1536 : Int).toNat < 1024 ^ (unitIndex (1536 : Int).toNat + 1) := by
  have h := formatBytes_spec_amended.2.2.2 1536 (by norm_num) (by norm_num)
  exact ⟨by norm_num, by norm_num, h.1, h.2.1, h.2.2⟩

/-! ### Rounding bridge lemmas -/

theorem round2_eq_floor (num den : Nat) (h : den ≠ 0) :
    round2 num den = (⌊((num : Rat) / den) * 100 + 1 / 2⌋).toNat := by
  have hd : (den : Rat) ≠ 0 := Nat.cast_ne_zero.mpr h
  have hq : ((num : Rat) / den) * 100 + 1 / 2 =
      ((200 * num + den : Nat) : Rat) / ((2 * den : Nat) : Rat) := by
    push_cast
    field_simp
    ring
  rw [round2, hq, Rat.floor_natCast_div_natCast, ← Int.natCast_div, Int.toNat_natCast]

theorem toFixed1Frac_eq_rat (num : Int) (den : Nat) (h : den ≠ 0) :
    toFixed1Frac num den = toFixed1Rat ((num : Rat) / (den : Rat)) := by
  have hd : (0 : Rat) < (den : Rat) := by
    exact_mod_cast Nat.pos_of_ne_zero h
  by_cases hn : num < 0
  · have hq : ((num : Rat) / (den : Rat)) < 0 :=
      div_neg_of_neg_of_pos (by exact_mod_cast hn) hd
    have habs : (-((num : Rat) / (den : Rat))) * 10 + 1 / 2 =
        ((20 * num.natAbs + den : Nat) : Rat) / ((2 * den : Nat) : Rat) := by
      have hcast : ((num.natAbs : Nat) : Rat) = -(num : Rat) := by
        rw [Int.cast_natAbs]
        simp [abs_of_neg (show (num : Rat) < 0 by exact_mod_cast hn)]
      push_cast [hcast]
      field_simp
      ring
    rw [toFixed1Frac, toFixed1Rat]
    simp only [if_pos hn, if_pos hq]
    rw [habs, Rat.floor_natCast_div_natCast, ← Int.natCast_div, Int.toNat_natCast]
  · have hq : ¬ ((num : Rat) / (den : Rat)) < 0 := by
      push_neg
      exact div_nonneg (by exact_mod_cast not_lt.mp hn) hd.le
    have habs : ((num : Rat) / (den : Rat)) * 10 + 1 / 2 =
        ((20 * num.natAbs + den : Nat) : Rat) / ((2 * den : Nat) : Rat) := by
      have hcast : ((num.natAbs : Nat) : Rat) = (num : Rat) := by
        rw [Int.cast_natAbs]
        simp [abs_of_nonneg (show (0 : Rat) ≤ (num : Rat) by exact_mod_cast not_lt.mp hn)]
      push_cast [hcast]
      field_simp
      ring
    rw [toFixed1Frac, toFixed1Rat]
    simp only [if_neg hn, if_neg hq]
    rw [habs, Rat.floor_natCast_div_natCast, ← Int.natCast_div, Int.toNat_natCast]

/-! ### Summary classification helpers -/

theorem filter_success_all {rs : List CompressionResult}
    (h : ∀ r ∈ rs, r.success = true) :
    rs.filter (fun r => r.success) = rs ∧
      rs.filter (fun r => !r.success) = [] := by
  constructor
  · exact List.filter_eq_self.2 h
  · refine List.filter_eq_nil_iff.2 ?_
    intro a ha
    simp [h a ha]

/-! ### C10 -/

/-- C10: the unit index is the floor base-1024 logarithm into a 4-entry
table — in bounds exactly for `bytes = 0` (special-cased) or
`1 ≤ bytes < 1024^4`; at `1024^4` and beyond the lookup falls off the
table and the unit renders as `undefined`; for negative input — reachable
as `formatBytes(savings)` whenever the summed compressed size exceeds the
summed original size — the output is `"NaN undefined"`. -/
theorem formatBytes_domain :
    (∀ b : Int, 1 ≤ b → b < (1024 : Int) ^ 4 →
        (sizes.get? (unitIndex b.toNat)).isSome = true) ∧
      (∀ b : Int, (1024 : Int) ^ 4 ≤ b →
        sizes.get? (unitIndex b.toNat) = none ∧
          formatBytes b =
            formatScaled b.toNat (1024 ^ unitIndex b.toNat) ++ " " ++ "undefined") ∧
      (∀ b : Int, b < 0 → formatBytes b = "NaN undefined") ∧
      (∀ results : List CompressionResult, (∀ r ∈ results, r.success = true) →
        totalOriginal results < totalCompressed results →
        ∃ s1 s2, summaryMessage results = s1 ++ ("NaN undefined" ++ s2)) := by
  refine ⟨?_, ?_, ?_, ?_⟩
  · intro b hb1 hb2
    have h1 : 1 ≤ b.toNat := by omega
    have h2 : b.toNat < 1024 ^ 4 := by
      have : ((1024 : Int) ^ 4) = ((1024 ^ 4 : Nat) : Int) := by norm_num
      omega
    have h4 := unitIndex_lt_four h1 h2
    rw [List.get?_eq_get (by simpa [sizes] using h4)]
    rfl
  · intro b hb
    have hpow : ((1024 : Int) ^ 4) = ((1024 ^ 4 : Nat) : Int) := by norm_num
    have h4 : 4 ≤ unitIndex b.toNat := four_le_unitIndex (by omega)
    have hnone : sizes.get? (unitIndex b.toNat) = none :=
      List.get?_eq_none.2 (by simpa [sizes] using h4)
    refine ⟨hnone, ?_⟩
    rw [formatBytes, if_neg (by omega : ¬ b = 0), if_neg (by omega : ¬ b < 0)]
    simp only [hnone, Option.getD_none]
  · intro b hb
    rw [formatBytes, if_neg (by omega : ¬ b = 0), if_pos hb]
  · intro results hall hlt
    obtain ⟨hs, hf⟩ := filter_success_all hall
    have hneg : ((totalOriginal results : Int) - (totalCompressed results : Int)) < 0 := by
      omega
    refine ⟨"✅ Optimized " ++ toString results.length ++ " file" ++
        pluralS results.length ++ " - Saved ",
      " (" ++ savingsPercentStr
          ((totalOriginal results : Int) - (totalCompressed results : Int))
          (totalOriginal results) ++ "%)", ?_⟩
    simp only [summaryMessage, hs, hf, List.length_nil, eq_self_iff_true, if_true]
    rw [formatBytes,
      if_neg (show ¬ ((totalOriginal results : Int) - (totalCompressed results : Int)) = 0 by
        omega),
      if_pos hneg]

/-- Witness for C10 at `b = 2^40` (off the table), `b = -5` (negative),
`b = 7` (in range), and a concrete all-succeeded batch whose compressed
total exceeds its original total. -/
theorem formatBytes_domain_witness :
    (sizes.get? (unitIndex ((1024 : Int) ^ 4).toNat)).isSome = false ∧
      formatBytes (-5) = "NaN undefined" ∧
      (sizes.get? (unitIndex ((7 : Int)).toNat)).isSome = true ∧
      ∃ s1 s2,
        summaryMessage [⟨"a.glb", true, none, some 100, some 150⟩] =
          s1 ++ ("NaN undefined" ++ s2) := by
  have h := formatBytes_domain
  refine ⟨?_, h.2.2.1 (-5) (by norm_num), h.1 7 (by norm_num) (by norm_num), ?_⟩
  · rw [(h.2.1 ((1024 : Int) ^ 4) le_rfl).1]
    rfl
  · exact h.2.2.2 [⟨"a.glb", true, none, some 100, some 150⟩]
      (by intro r hr; simp at hr; subst hr; rfl) (by decide)

/-! ### C7 -/

/-- C7: for an all-succeeded batch with a nonzero original total, the
HUD reports the percent saved
`(Σ originalSize − Σ compressedSize) / Σ originalSize × 100` rendered to
one decimal place; on totals {100, 200} vs {50, 100} that is `"50.0"`;
and the division carries no guard for a zero total — it reaches the
division and renders its non-numeric IEEE result (`"NaN"` at 0/0). -/
theorem summary_percent_formula :
    (∀ results : List CompressionResult, (∀ r ∈ results, r.success = true) →
        totalOriginal results ≠ 0 →
        summaryMessage results =
          ("✅ Optimized " ++ toString results.length ++ " file" ++
              pluralS results.length ++ " - Saved ") ++
            (formatBytes
                ((totalOriginal results : Int) - (totalCompressed results : Int)) ++
              (" (" ++
                toFixed1Rat
                  (((totalOriginal results : Rat) - (totalCompressed results : Rat)) /
                      (totalOriginal results : Rat) * 100) ++
                "%)"))) ∧
      savingsPercentStr 150 300 = "50.0" ∧
      summaryMessage
          [⟨"a.glb", true, none, some 100, some 50⟩,
            ⟨"b.glb", true, none, some 200, some 100⟩] =
        "✅ Optimized 2 files - Saved 150 Bytes (50.0%)" ∧
      savingsPercentStr 0 0 = "NaN" := by
  refine ⟨?_, by decide, by decide, by decide⟩
  intro results hall hne
  obtain ⟨hs, hf⟩ := filter_success_all hall
  have hps : savingsPercentStr
        ((totalOriginal results : Int) - (totalCompressed results : Int))
        (totalOriginal results) =
      toFixed1Rat
        (((totalOriginal results : Rat) - (totalCompressed results : Rat)) /
            (totalOriginal results : Rat) * 100) := by
    rw [savingsPercentStr, if_neg hne, toFixed1Frac_eq_rat _ _ hne]
    congr 1
    have hd : ((totalOriginal results : Nat) : Rat) ≠ 0 := Nat.cast_ne_zero.mpr hne
    push_cast
    field_simp
  simp only [summaryMessage, hs, hf, List.length_nil, eq_self_iff_true, if_true]
  rw [hps]

/-- Witness for C7's general part on the {100, 200} / {50, 100} batch. -/
theorem summary_percent_formula_witness :
    (∀ r ∈ [(⟨"a.glb", true, none, some 100, some 50⟩ : CompressionResult),
        ⟨"b.glb", true, none, some 200, some 100⟩], r.success = true) ∧
      totalOriginal
          [(⟨"a.glb", true, none, some 100, some 50⟩ : CompressionResult),
            ⟨"b.glb", true, none, some 200, some 100⟩] ≠ 0 ∧
      summaryMessage
          [(⟨"a.glb", true, none, some 100, some 50⟩ : CompressionResult),
            ⟨"b.glb", true, none, some 200, some 100⟩] =
        ("✅ Optimized " ++
            toString
              ([(⟨"a.glb", true, none, some 100, some 50⟩ : CompressionResult),
                  ⟨"b.glb", true, none, some 200, some 100⟩] :
                List CompressionResult).length ++ " file" ++
            pluralS
              ([(⟨"a.glb", true, none, some 100, some 50⟩ : CompressionResult),
                  ⟨"b.glb", true, none, some 200, some 100⟩] :
                List CompressionResult).length ++ " - Saved ") ++
          (formatBytes
              ((totalOriginal
                    [(⟨"a.glb", true, none, some 100, some 50⟩ : CompressionResult),
                      ⟨"b.glb", true, none, some 200, some 100⟩] : Int) -
                (totalCompressed
                    [(⟨"a.glb", true, none, some 100, some 50⟩ : CompressionResult),
                      ⟨"b.glb", true, none, some 200, some 100⟩] : Int)) ++
            (" (" ++
              toFixed1Rat
                (((totalOriginal
                        [(⟨"a.glb", true, none, some 100, some 50⟩ : CompressionResult),
                          ⟨"b.glb", true, none, some 200, some 100⟩] : Rat) -
                      (totalCompressed
                        [(⟨"a.glb", true, none, some 100, some 50⟩ : CompressionResult),
                          ⟨"b.glb", true, none, some 200, some 100⟩] : Rat)) /
                    (totalOriginal
                      [(⟨"a.glb", true, none, some 100, some 50⟩ : CompressionResult),
                        ⟨"b.glb", true, none, some 200, some 100⟩] : Rat) * 100) ++
              "%)")) :=
  ⟨by decide, by decide,
    summary_percent_formula.1
      [⟨"a.glb", true, none, some 100, some 50⟩,
        ⟨"b.glb", true, none, some 200, some 100⟩]
      (by decide) (by decide)⟩

/-! ### C6 -/

/-- C6 counterexample: with a single file whose only command fails with
`"boom"`, the error is captured in the `CompressionResult`, but the
all-failed HUD message is the count-only `"❌ Failed to optimize 1 file"`
and does not contain the error text; likewise the mixed HUD message. -/
theorem error_not_in_summary_counterexample :
    (transformGlb envBoom "a.glb" vAllOff).error = some "boom" ∧
      summaryMessage [transformGlb envBoom "a.glb" vAllOff] =
        "❌ Failed to optimize 1 file" ∧
      ¬ ("boom".data <:+:
          (summaryMessage [transformGlb envBoom "a.glb" vAllOff]).data) ∧
      summaryMessage
          [transformGlb envBoom "a.glb" vAllOff,
            ⟨"b.glb", true, none, some 10, some 5⟩] =
        "⚠️ 1 optimized, 1 failed" ∧
      ¬ ("boom".data <:+:
          (summaryMessage
              [transformGlb envBoom "a.glb" vAllOff,
                ⟨"b.glb", true, none, some 10, some 5⟩]).data) := by
  decide

/-- C6 (amended): a per-file failure's error message is captured verbatim
in that file's `CompressionResult.error`; the mixed and all-failed
terminal notifications report only the success/failure counts — they are
determined by those counts alone and never incorporate the error text. -/
theorem error_captured_counts_only :
    (∀ (env : Env) (p : String) (v : FormValues) (m : String),
        transformGlbE env p v = .error m →
        transformGlb env p v =
          ⟨basename p, false, some m, none, none⟩) ∧
      ∀ rs rs' : List CompressionResult,
        (rs.filter (fun r => !r.success)).length ≠ 0 →
        (rs.filter (fun r => r.success)).length =
          (rs'.filter (fun r => r.success)).length →
        (rs.filter (fun r => !r.success)).length =
          (rs'.filter (fun r => !r.success)).length →
        summaryMessage rs = summaryMessage rs' := by
  constructor
  · intro env p v m h
    rw [transformGlb, h]
  · intro rs rs' hfail hseq hfeq
    simp only [summaryMessage]
    rw [← hseq, ← hfeq, if_neg hfail, if_neg hfail]

/-- Witness for C6's amended claim: the capture at a concrete failing
file, and count-determined summaries of two batches differing only in
error text. -/
theorem error_captured_counts_only_witness :
    transformGlb envBoom "a.glb" vAllOff =
        ⟨basename "a.glb", false, some "boom", none, none⟩ ∧
      summaryMessage [(⟨"a.glb", false, some "xyz", none, none⟩ : CompressionResult)] =
        summaryMessage [(⟨"b.glb", false, some "other msg", none, none⟩ : CompressionResult)] :=
  ⟨error_captured_counts_only.1 envBoom "a.glb" vAllOff "boom" rfl,
    error_captured_counts_only.2
      [⟨"a.glb", false, some "xyz", none, none⟩]
      [⟨"b.glb", false, some "other msg", none, none⟩]
      (by decide) (by decide) (by decide)⟩

/-! ### Builder helper lemmas -/

theorem chainCmds_map_name :
    ∀ (l : List (String × String)) (cur out : String),
      (chainCmds cur out l).map Cmd.name = l.map Prod.fst := by
  intro l
  induction l with
  | nil => intro cur out; rfl
  | cons s rest ih =>
      intro cur out
      obtain ⟨c, a⟩ := s
      simp [chainCmds, ih]

theorem chainCmds_outputs :
    ∀ (l : List (String × String)) (cur out : String),
      ∀ c ∈ chainCmds cur out l, c.output = out := by
  intro l
  induction l with
  | nil => intro cur out c hc; simp [chainCmds] at hc
  | cons s rest ih =>
      intro cur out c hc
      obtain ⟨nm, a⟩ := s
      rw [chainCmds] at hc
      rcases List.mem_cons.mp hc with hc | hc
      · rw [hc]
      · exact ih out out c hc

theorem chainCmds_chain :
    ∀ (l : List (String × String)) (cur out : String),
      List.Chain' (fun a b => b.input = a.output) (chainCmds cur out l) := by
  intro l
  induction l with
  | nil => intro cur out; simp [chainCmds]
  | cons s rest ih =>
      intro cur out
      obtain ⟨nm, a⟩ := s
      rw [chainCmds, List.chain'_cons']
      refine ⟨?_, ih out out⟩
      intro y hy
      cases rest with
      | nil => simp [chainCmds] at hy
      | cons t ts =>
          obtain ⟨nt, at'⟩ := t
          simp only [chainCmds, List.head?_cons, Option.mem_def, Option.some.injEq] at hy
          subst hy
          rfl

theorem mem_segJoin {α : Type} {a : α} :
    ∀ {l : List (Bool × α)}, a ∈ segJoin l → ∃ p ∈ l, p.1 = true ∧ p.2 = a := by
  intro l
  induction l with
  | nil => intro h; simp [segJoin] at h
  | cons q rest ih =>
      intro h
      obtain ⟨b, x⟩ := q
      rw [segJoin, List.mem_append] at h
      rcases h with h | h
      · by_cases hb : b = true
        · rw [if_pos hb, List.mem_singleton] at h
          exact ⟨(b, x), List.mem_cons_self _ _, hb, h.symm⟩
        · rw [if_neg hb] at h
          simp at h
      · obtain ⟨p, hp, hp1, hp2⟩ := ih h
        exact ⟨p, List.mem_cons_of_mem _ hp, hp1, hp2⟩

theorem segJoin_mem {α : Type} {p : Bool × α} :
    ∀ {l : List (Bool × α)}, p ∈ l → p.1 = true → p.2 ∈ segJoin l := by
  intro l
  induction l with
  | nil => intro h; simp at h
  | cons q rest ih =>
      intro h hp
      rw [segJoin, List.mem_append]
      rcases List.mem_cons.mp h with h | h
      · subst h
        rw [hp]
        exact Or.inl (List.mem_singleton.mpr rfl)
      · exact Or.inr (ih h hp)

theorem pairwise_segJoin {α : Type} {R : α → α → Prop} :
    ∀ {l : List (Bool × α)},
      List.Pairwise (fun p q => p.1 = true → q.1 = true → R p.2 q.2) l →
      List.Pairwise R (segJoin l) := by
  intro l
  induction l with
  | nil => intro _; simp [segJoin]
  | cons q rest ih =>
      intro h
      obtain ⟨hhead, htail⟩ := List.pairwise_cons.mp h
      rw [segJoin, List.pairwise_append]
      refine ⟨?_, ih htail, ?_⟩
      · obtain ⟨b, x⟩ := q
        by_cases hb : b = true
        · rw [if_pos hb]; simp
        · rw [if_neg hb]; simp
      · intro a ha y hy
        obtain ⟨b, x⟩ := q
        by_cases hb : b = true
        · rw [if_pos hb, List.mem_singleton] at ha
          subst ha
          obtain ⟨py, hpy, hpy1, hpy2⟩ := mem_segJoin hy
          subst hpy2
          exact hhead py hpy hb hpy1
        · rw [if_neg hb] at ha
          simp at ha

theorem segJoin_append {α : Type} :
    ∀ (l1 l2 : List (Bool × α)), segJoin (l1 ++ l2) = segJoin l1 ++ segJoin l2 := by
  intro l1 l2
  induction l1 with
  | nil => simp [segJoin]
  | cons q rest ih =>
      obtain ⟨b, x⟩ := q
      simp [segJoin, ih]

/-! ### C2 -/

/-- C2: every command of the built chain declares the same (quoted)
output path; the first command's declared input is the (quoted) original
file path; and every later command's declared input equals the previous
command's declared output. -/
theorem pipeline_chain_invariant (p : String) (v : FormValues) :
    buildCommands p v ≠ [] ∧
      (∀ c ∈ buildCommands p v, c.output = quoteArg (outputPathAdv p)) ∧
      ((buildCommands p v).head?.map Cmd.input = some (quoteArg p)) ∧
      List.Chain' (fun a b => b.input = a.output) (buildCommands p v) := by
  have hsteps : (if buildSteps v = [] then [(("copy" : String), ("" : String))]
      else buildSteps v) ≠ [] := by
    split
    · simp
    · assumption
  rw [buildCommands]
  constructor
  · obtain ⟨s, rest, hrest⟩ := List.exists_cons_of_ne_nil hsteps
    rw [hrest]
    obtain ⟨nm, a⟩ := s
    simp [chainCmds]
  refine ⟨chainCmds_outputs _ _ _, ?_, chainCmds_chain _ _ _⟩
  obtain ⟨s, rest, hrest⟩ := List.exists_cons_of_ne_nil hsteps
  rw [hrest]
  obtain ⟨nm, a⟩ := s
  simp [chainCmds]

/-! ### C3 -/

/-- C3: with every optional step disabled and both codecs and the resize
selection `"none"`, the builder produces exactly one command: a `copy`
from the (quoted) input path to the (quoted) derived output path. -/
theorem allDisabled_single_copy (p : String) (v : FormValues)
    (h : allDisabled v) :
    buildCommands p v =
      [⟨"copy", quoteArg p, quoteArg (outputPathAdv p), ""⟩] := by
  obtain ⟨h1, h2, h3, h4, h5, h6, h7, h8, h9, h10, h11, h12, h13⟩ := h
  simp [buildCommands, buildSteps, stepList, segJoin, chainCmds,
    h1, h2, h3, h4, h5, h6, h7, h8, h9, h10, h11, h12, h13]

/-- Witness for C3 on the all-off configuration and a concrete path. -/
theorem allDisabled_single_copy_witness :
    allDisabled vAllOff ∧
      buildCommands "/Users/x/model.glb" vAllOff =
        [⟨"copy", quoteArg "/Users/x/model.glb",
          quoteArg (outputPathAdv "/Users/x/model.glb"), ""⟩] :=
  ⟨by decide, allDisabled_single_copy "/Users/x/model.glb" vAllOff (by decide)⟩

/-! ### Path length lemmas and C4 -/

theorem joinPath_length (d n : String) :
    (joinPath d n).length =
      (if d = "." then 0 else if d = "/" then 1 else d.length + 1) + n.length := by
  have hs : ("/" : String).length = 1 := rfl
  rw [joinPath]
  split_ifs with h1 h2
  · omega
  · rw [String.length_append]
    omega
  · rw [String.length_append, String.length_append]
    omega

theorem stripSuffixCh_length_ge (l s : List Char) :
    l.length ≤ (stripSuffixCh l s).length + s.length := by
  rw [stripSuffixCh]
  split_ifs with h
  · have hle : s.length ≤ l.length := h.2.length_le
    simp only [List.length_take]
    omega
  · omega

theorem basenameExt_length_ge (p ext : String) :
    (basename p).length ≤ (basenameExt p ext).length + ext.length := by
  have h := stripSuffixCh_length_ge (basename p).data ext.data
  have e1 : (basename p).length = (basename p).data.length := rfl
  have e2 : (basenameExt p ext).length =
      (stripSuffixCh (basename p).data ext.data).length := rfl
  have e3 : ext.length = ext.data.length := rfl
  omega

/-- If a normalized path is reassembled from its directory with a longer
file name, the result differs from the original. -/
theorem joinPath_ne_of_longer (p n : String)
    (hrt : p = joinPath (dirname p) (basename p))
    (hlen : (basename p).length < n.length) :
    joinPath (dirname p) n ≠ p := by
  intro h
  have h1 : (joinPath (dirname p) n).length = p.length := congrArg String.length h
  have h2 : p.length = (joinPath (dirname p) (basename p)).length :=
    congrArg String.length hrt
  rw [joinPath_length] at h1
  rw [joinPath_length] at h2
  omega

/-- C4: in the advanced pipeline and all three fixed modes, the derived
output path is obtained from the input path deterministically — the
directory, the base name stripped of its `.glb` extension, a
mode-dependent suffix (`_optimized`, `_draco`, `_ktx`, `_compressed`),
and the `.glb` extension — and it never equals the input path, so the
original file is never a command's declared output. -/
theorem output_path_ne_input (p : String)
    (hrt : p = joinPath (dirname p) (basename p)) :
    (outputPathAdv p =
        joinPath (dirname p) (basenameExt p ".glb" ++ "_optimized" ++ ".glb") ∧
      outputPathAdv p ≠ p) ∧
      ∀ m : CompressionMode,
        outputPathMode m p =
            joinPath (dirname p) (basenameExt p ".glb" ++ modeSuffix m ++ ".glb") ∧
          outputPathMode m p ≠ p := by
  have hglb : (".glb" : String).length = 4 := rfl
  have hbase : ∀ suffix : String, suffix.length ≠ 0 →
      (basename p).length <
        (basenameExt p ".glb" ++ suffix ++ ".glb").length := by
    intro suffix hs
    have h1 := basenameExt_length_ge p ".glb"
    rw [String.length_append, String.length_append]
    omega
  refine ⟨⟨?_, ?_⟩, ?_⟩
  · rw [outputPathAdv, String.append_assoc,
      show ("_optimized" ++ ".glb" : String) = "_optimized.glb" by decide]
  · rw [outputPathAdv,
      show ("_optimized.glb" : String) = "_optimized" ++ ".glb" by decide,
      ← String.append_assoc]
    exact joinPath_ne_of_longer p _ hrt
      (hbase "_optimized" (by decide))
  · intro m
    refine ⟨rfl, ?_⟩
    rw [outputPathMode]
    refine joinPath_ne_of_longer p _ hrt ?_
    exact hbase (modeSuffix m) (by cases m <;> decide)

/-- Witness for C4 at a concrete normalized path. -/
theorem output_path_ne_input_witness :
    ("/Users/x/model.glb" : String) =
        joinPath (dirname "/Users/x/model.glb") (basename "/Users/x/model.glb") ∧
      outputPathAdv "/Users/x/model.glb" ≠ "/Users/x/model.glb" ∧
      outputPathMode CompressionMode.draco "/Users/x/model.glb" ≠
        "/Users/x/model.glb" :=
  ⟨by decide,
    ((output_path_ne_input "/Users/x/model.glb" (by decide)).1).2,
    ((output_path_ne_input "/Users/x/model.glb" (by decide)).2 CompressionMode.draco).2⟩

/-! ### C5 -/

theorem runCmds_append_error (env : Env) (pre : List String) (c : String)
    (post : List String) (m : String)
    (hpre : ∀ a ∈ pre, env.run a = .ok ())
    (hc : env.run c = .error m) :
    runCmds env (pre ++ c :: post) = .error m := by
  induction pre with
  | nil =>
      rw [List.nil_append, runCmds, hc]
      rfl
  | cons a rest ih =>
      rw [List.cons_append, runCmds, hpre a (List.mem_cons_self _ _)]
      exact ih fun x hx => hpre x (List.mem_cons_of_mem _ hx)

/-- C5: the batch loop returns one `CompressionResult` per input file, in
input order, each computed independently as `transformGlb` of that file;
and within one file, if some command of its chain fails after the
preceding ones succeeded, that file's result is the failure record
carrying the error — the commands after the failing one play no part. -/
theorem batch_results_isolation :
    (∀ (env : Env) (files : List String) (v : FormValues),
        (processFiles env files v).length = files.length ∧
        ∀ i : Nat, (processFiles env files v)[i]? =
          (files[i]?).map fun f => transformGlb env f v) ∧
      ∀ (env : Env) (p : String) (v : FormValues) (n : Nat)
        (pre : List Cmd) (c : Cmd) (post : List Cmd) (m : String),
        buildCommands p v = pre ++ c :: post →
        env.fileSize p = .ok n →
        (∀ a ∈ pre, env.run (renderCommand a) = .ok ()) →
        env.run (renderCommand c) = .error m →
        transformGlb env p v = ⟨basename p, false, some m, none, none⟩ := by
  constructor
  · intro env files v
    refine ⟨List.length_map _ _, ?_⟩
    intro i
    rw [processFiles, List.getElem?_map]
  · intro env p v n pre c post m hcmds hsize hpre hc
    have hrun : runCmds env ((buildCommands p v).map renderCommand) = .error m := by
      rw [hcmds, List.map_append, List.map_cons]
      refine runCmds_append_error env _ _ _ _ ?_ hc
      intro a ha
      obtain ⟨b, hb, rfl⟩ := List.mem_map.mp ha
      exact hpre b hb
    have hE : transformGlbE env p v = .error m := by
      rw [transformGlbE, hsize]
      show (runCmds env ((buildCommands p v).map renderCommand)).bind _ = _
      rw [hrun]
      rfl
    rw [transformGlb, hE]

/-- Witness for C5: three files where exactly the second file's only
command fails; the result list has length 3, entry 1 is the failure
record, entries 0 and 2 are that file's own (successful) outcome. -/
theorem batch_results_isolation_witness :
    (processFiles envFailB ["a.glb", "b.glb", "c.glb"] vAllOff).length = 3 ∧
      transformGlb envFailB "b.glb" vAllOff =
        ⟨basename "b.glb", false, some "boom", none, none⟩ ∧
      (processFiles envFailB ["a.glb", "b.glb", "c.glb"] vAllOff)[1]? =
        some (transformGlb envFailB "b.glb" vAllOff) ∧
      (processFiles envFailB ["a.glb", "b.glb", "c.glb"] vAllOff)[0]? =
        some (transformGlb envFailB "a.glb" vAllOff) ∧
      (transformGlb envFailB "a.glb" vAllOff).success = true ∧
      (transformGlb envFailB "c.glb" vAllOff).success = true := by
  have h := batch_results_isolation
  refine ⟨(h.1 envFailB ["a.glb", "b.glb", "c.glb"] vAllOff).1, ?_, ?_, ?_, ?_, ?_⟩
  · exact h.2 envFailB "b.glb" vAllOff 10 []
      ⟨"copy", quoteArg "b.glb", quoteArg (outputPathAdv "b.glb"), ""⟩ [] "boom"
      rfl rfl (by intro a ha; exact absurd ha (List.not_mem_nil a)) rfl
  · exact ((h.1 envFailB ["a.glb", "b.glb", "c.glb"] vAllOff).2 1).trans rfl
  · exact ((h.1 envFailB ["a.glb", "b.glb", "c.glb"] vAllOff).2 0).trans rfl
  · decide
  · decide

/-! ### C1: priority machinery -/

theorem sp_dedup : stepPriority "dedup" = 0 := by decide
theorem sp_weld : stepPriority "weld" = 5 := by decide
theorem sp_simplify : stepPriority "simplify" = 6 := by decide

/-- What the builder emits is a selection (a sublist) of the full step
sequence. -/
theorem segJoin_sublist {α : Type} :
    ∀ l : List (Bool × α), List.Sublist (segJoin l) (l.map Prod.snd) := by
  intro l
  induction l with
  | nil => simp [segJoin]
  | cons q rest ih =>
      obtain ⟨b, x⟩ := q
      rw [segJoin, List.map_cons]
      by_cases hb : b = true
      · rw [if_pos hb, List.singleton_append]
        exact ih.cons₂ x
      · rw [if_neg hb, List.nil_append]
        exact ih.cons x

/-- No step the builder emits is named `"none"`: the two codec steps are
guarded by their selections being different from `"none"`, and `ktx2`
maps to `etc1s`. -/
theorem buildSteps_name_ne_none (v : FormValues) :
    ∀ a ∈ (buildSteps v).map Prod.fst, a ≠ "none" := by
  intro a ha
  obtain ⟨s, hsmem, rfl⟩ := List.mem_map.mp ha
  obtain ⟨q, hq, hq1, hq2⟩ := mem_segJoin hsmem
  subst hq2
  simp only [stepList, List.mem_cons, List.not_mem_nil, or_false] at hq
  rcases hq with rfl|rfl|rfl|rfl|rfl|rfl|rfl|rfl|rfl|rfl|rfl|rfl|rfl
  · simp
  · simp
  · simp
  · simp
  · simp
  · simp
  · simp
  · simp
  · simp
  · simp
  · show textureCmd v ≠ "none"
    rw [textureCmd]
    split_ifs with h
    · decide
    · exact bne_iff_ne.mp hq1
  · simp
  · exact bne_iff_ne.mp hq1

/-- The emitted step names are strictly increasing in the builder's fixed
priority ranking. -/
theorem names_pairwise (v : FormValues) (hwf : WFValues v) :
    List.Pairwise (fun a b => stepPriority a < stepPriority b)
      ((buildSteps v).map Prod.fst) := by
  have hsub : List.Sublist ((buildSteps v).map Prod.fst)
      (((stepList v).map Prod.snd).map Prod.fst) :=
    (segJoin_sublist (stepList v)).map Prod.fst
  have hfull : ((stepList v).map Prod.snd).map Prod.fst =
      ["dedup", "instance", "palette", "flatten", "join", "weld", "simplify",
        "resample", "prune", "sparse", textureCmd v, "resize",
        v.geometryCompression] := by
    simp [stepList]
  rw [hfull] at hsub
  obtain ⟨hg, ht⟩ := hwf
  simp only [List.mem_cons, List.mem_singleton, List.not_mem_nil, or_false] at hg ht
  have hR : List.Pairwise
      (fun a b => stepPriority a < stepPriority b ∨ a = "none" ∨ b = "none")
      ["dedup", "instance", "palette", "flatten", "join", "weld", "simplify",
        "resample", "prune", "sparse", textureCmd v, "resize",
        v.geometryCompression] := by
    rcases hg with hg|hg|hg <;> rcases ht with ht|ht|ht|ht|ht|ht <;>
      simp only [textureCmd, hg, ht] <;> decide
  have hP := hR.sublist hsub
  refine hP.imp_of_mem ?_
  intro a b ha hb hr
  rcases hr with h | h | h
  · exact h
  · exact absurd h (buildSteps_name_ne_none v a ha)
  · exact absurd h (buildSteps_name_ne_none v b hb)

/-- With weld and simplify both enabled, the weld step is emitted
strictly before the simplify step. -/
theorem weld_before_simplify_steps (v : FormValues) (hw : v.weld = true)
    (hs : v.simplify = true) :
    List.Sublist ["weld", "simplify"] ((buildSteps v).map Prod.fst) := by
  have hsplit : stepList v =
      [ (v.dedup, ("dedup", "")),
        (v.«instance», ("instance", "--min " ++ orDefault v.instanceMin "5")),
        (v.palette, ("palette", "--min " ++ orDefault v.paletteMin "5")),
        (v.flatten, ("flatten", "")),
        (v.join, ("join", "")) ] ++
      ( (v.weld, ("weld", "")) ::
        (v.simplify, ("simplify", "--ratio " ++ orDefault v.simplifyRatio "0.75")) ::
        [ (v.resample, ("resample", "")),
          (v.prune, ("prune", "")),
          (v.sparse, ("sparse", "")),
          (v.textureCompression != "none", (textureCmd v, "")),
          (v.textureResize != "none",
            ("resize", "--width " ++ v.textureResize ++ " --height " ++ v.textureResize)),
          (v.geometryCompression != "none", (v.geometryCompression, "")) ]) := rfl
  rw [buildSteps, hsplit, segJoin_append, List.map_append]
  refine List.Sublist.trans ?_ (List.sublist_append_right _ _)
  rw [segJoin, if_pos hw, segJoin, if_pos hs]
  rw [List.singleton_append, List.singleton_append, List.map_cons, List.map_cons]
  exact ((List.nil_sublist _).cons₂ "simplify").cons₂ "weld"

/-- With a geometry codec selected, its step is emitted last. -/
theorem geometry_last_steps (v : FormValues)
    (hg : (v.geometryCompression != "none") = true) :
    ((buildSteps v).map Prod.fst).getLast? = some v.geometryCompression := by
  have hsplit : stepList v =
      (stepList v).dropLast ++
        [(v.geometryCompression != "none", (v.geometryCompression, ""))] := rfl
  conv_lhs => rw [buildSteps, hsplit]
  rw [segJoin_append, segJoin, if_pos hg, segJoin, List.append_nil,
    List.map_append, List.map_cons, List.map_nil, List.getLast?_concat]

/-! ### C1 -/

/-- C1: the builder emits the enabled steps with strictly increasing rank
in the fixed priority sequence (dedup, instance, palette, flatten, join,
weld, simplify, resample, prune, sparse, texture compression, texture
resize, geometry codec), for every configuration of the form's
vocabulary; in particular with weld and simplify both enabled the weld
command comes strictly before the simplify command, and with a geometry
codec selected its command is the last of the sequence. -/
theorem pipeline_fixed_priority_order (p : String) (v : FormValues)
    (hwf : WFValues v) :
    List.Pairwise (fun a b => stepPriority a < stepPriority b)
        ((buildCommands p v).map Cmd.name) ∧
      (v.weld = true → v.simplify = true →
        List.Sublist ["weld", "simplify"] ((buildCommands p v).map Cmd.name)) ∧
      (v.geometryCompression ≠ "none" →
        ((buildCommands p v).map Cmd.name).getLast? =
          some v.geometryCompression) := by
  by_cases hempty : buildSteps v = []
  · have hnames : (buildCommands p v).map Cmd.name = ["copy"] := by
      rw [buildCommands, if_pos hempty, chainCmds_map_name]
      rfl
    rw [hnames]
    refine ⟨by simp, ?_, ?_⟩
    · intro hw _
      exfalso
      have hmem : (("weld", "") : String × String) ∈ buildSteps v :=
        segJoin_mem (p := (v.weld, ("weld", ""))) (l := stepList v)
          (by simp [stepList]) hw
      rw [hempty] at hmem
      exact absurd hmem (List.not_mem_nil _)
    · intro hgeo
      exfalso
      have hmem : ((v.geometryCompression, "") : String × String) ∈ buildSteps v :=
        segJoin_mem
          (p := (v.geometryCompression != "none", (v.geometryCompression, "")))
          (l := stepList v) (by simp [stepList]) (bne_iff_ne.mpr hgeo)
      rw [hempty] at hmem
      exact absurd hmem (List.not_mem_nil _)
  · have hnames : (buildCommands p v).map Cmd.name = (buildSteps v).map Prod.fst := by
      rw [buildCommands, if_neg hempty, chainCmds_map_name]
    rw [hnames]
    exact ⟨names_pairwise v hwf,
      fun hw hs => weld_before_simplify_steps v hw hs,
      fun hgeo => geometry_last_steps v (bne_iff_ne.mpr hgeo)⟩

/-- Witness for C1 on a configuration enabling dedup, weld, simplify,
ktx2 texture compression and draco geometry compression. -/
theorem pipeline_fixed_priority_order_witness :
    WFValues vSome ∧
      List.Pairwise (fun a b => stepPriority a < stepPriority b)
        ((buildCommands "/a/m.glb" vSome).map Cmd.name) ∧
      List.Sublist ["weld", "simplify"]
        ((buildCommands "/a/m.glb" vSome).map Cmd.name) ∧
      ((buildCommands "/a/m.glb" vSome).map Cmd.name).getLast? = some "draco" := by
  have h := pipeline_fixed_priority_order "/a/m.glb" vSome (by decide)
  exact ⟨by decide, h.1, h.2.1 rfl rfl, h.2.2 (by decide)⟩

end GlbSpec
